import Mathlib

/-!
Verification of the pg_pack export pipeline (package `core`).

Go strings are modelled as Lean `String`s; `sql.NullString` /
`sql.NullInt64` become `Option String` / `Option Int` (the Go zero value
`""` / `0` is produced by `Option.getD` where the code reads `.String`
without checking `.Valid`).  Database query results are passed to the
embedded functions as explicit lists of scanned rows.  File-system and
standard-input effects in `init` / `Pack` / `cleanup` are modelled by an
explicit environment record that fixes the result of each fallible
operating-system call, and the functions return the resulting state.
-/

namespace PgPack

/-- Embeds Go `strings.Join(parts, sep)`: concatenation of the parts with
`sep` between consecutive parts. -/
def goJoin (sep : String) : List String → String
  | [] => ""
  | [p] => p
  | p :: rest => p ++ sep ++ goJoin sep rest

/-- Embeds `strings.ReplaceAll(s, "'", "''")` at the character level: every
single-quote character is replaced by two single-quote characters (the
pattern is a single character, so Go's leftmost non-overlapping replacement
is exactly this character-wise map). -/
def escQuoteAux : List Char → List Char
  | [] => []
  | c :: cs => if c = '\'' then '\'' :: '\'' :: escQuoteAux cs else c :: escQuoteAux cs

/-- `strings.ReplaceAll(s, "'", "''")` on `String`. -/
def escQuote (s : String) : String := ⟨escQuoteAux s.data⟩

/-- Embeds Go `strings.ToLower(s)`: per-character lowering (only the ASCII
range is relevant to the record-mode comparison this is used for). -/
def goToLower (s : String) : String := ⟨s.data.map Char.toLower⟩

/-- Embeds Go `strings.HasPrefix(s, pre)`. -/
def goStartsWith (s pre : String) : Bool := pre.data.isPrefixOf s.data

/-- `sql.NullString.String`: the Go zero value `""` when the field is not
valid, the carried string otherwise. -/
def nullStr (o : Option String) : String := o.getD ""

/-- `sql.NullInt64.Int64`: the Go zero value `0` when not valid. -/
def nullInt (o : Option Int) : Int := o.getD 0

/-! ## Record streamer: value encoding

The per-value `switch` bodies of `broadcastTableRecordsINSERT` (source
lines 892–932) and `broadcastTableRecordsCOPY` (lines 974–1013).  A Go
`time.Time` value is modelled by the string its `%v` formatting produces
together with the result of re-parsing that string with the layout
`"2006-01-02 15:04:05 -0700 -0700"`: `parsed = none` models a parse
error, and a successful parse carries the `Clock()` components and the
two `Format` outputs the code may emit. -/

/-- Result of `time.Parse("2006-01-02 15:04:05 -0700 -0700", strValue)`
when it succeeds, as used by the serializers. -/
structure ParsedTime where
  hour : Nat
  minute : Nat
  second : Nat
  /-- `t.Format("2006-01-02 15:04:05")` -/
  datetimeText : String
  /-- `t.Format("2006-01-02")` -/
  dateText : String
  deriving DecidableEq, Repr

/-- A Go `time.Time` row value, carrying its default formatting and the
outcome of the layout re-parse performed by both serializers. -/
structure GoTime where
  text : String
  parsed : Option ParsedTime
  deriving DecidableEq, Repr

/-- A dynamically typed Go row value (`interface{}`), one constructor per
case of the serializers' type switch.  Floating-point and fall-through
values carry their `fmt.Sprintf("%v", value)` text. -/
inductive GoValue where
  | goNil
  | goInt (n : Int)
  | goFloat (text : String)
  | goBool (b : Bool)
  | goString (s : String)
  | goTime (t : GoTime)
  | goOther (text : String)
  deriving DecidableEq, Repr

/-- The per-value encoding performed inside the row loop of
`broadcastTableRecordsINSERT`: `none` models the `continue` taken when the
`time.Parse` of a `time.Time` value fails (no literal is appended, and the
trailing separator append is skipped as well). -/
def encodeValueINSERT : GoValue → Option String
  | .goNil => some "NULL"
  | .goInt n => some (toString n)
  | .goFloat text => some text
  | .goBool b => some (if b then "TRUE" else "FALSE")
  | .goString s => some ("'" ++ escQuote s ++ "'")
  | .goTime t =>
    match t.parsed with
    | none => none
    | some p =>
      if p.hour + p.minute + p.second ≠ 0 then some ("'" ++ p.datetimeText ++ "'")
      else some ("'" ++ p.dateText ++ "'")
  | .goOther text => some ("'" ++ text ++ "'")

/-- The per-value encoding performed inside the row loop of
`broadcastTableRecordsCOPY` (textually identical switch). -/
def encodeValueCOPY : GoValue → Option String
  | .goNil => some "NULL"
  | .goInt n => some (toString n)
  | .goFloat text => some text
  | .goBool b => some (if b then "TRUE" else "FALSE")
  | .goString s => some ("'" ++ escQuote s ++ "'")
  | .goTime t =>
    match t.parsed with
    | none => none
    | some p =>
      if p.hour + p.minute + p.second ≠ 0 then some ("'" ++ p.datetimeText ++ "'")
      else some ("'" ++ p.dateText ++ "'")
  | .goOther text => some ("'" ++ text ++ "'")

/-- The `for i, value := range values` body of the INSERT serializer:
appends the encoded literal and, unless `i` is the last index, the `", "`
separator; a `continue` (encoder returns `none`) appends neither. -/
def insertValuesLoop (total : Nat) : Nat → List GoValue → String
  | _, [] => ""
  | i, v :: rest =>
    (match encodeValueINSERT v with
     | none => ""
     | some lit => lit ++ (if i ≠ total - 1 then ", " else "")) ++
    insertValuesLoop total (i + 1) rest

/-- The pieces appended by `insertValuesLoop`, reified as a list (one entry
per value that emits a literal). -/
def insertPieces (total : Nat) : Nat → List GoValue → List String
  | _, [] => []
  | i, v :: rest =>
    (match encodeValueINSERT v with
     | none => []
     | some lit => [lit ++ (if i ≠ total - 1 then ", " else "")]) ++
    insertPieces total (i + 1) rest

/-- Concatenation of a list of string pieces, in order (the effect of the
successive `insertStmt += ...` appends). -/
def concatAll : List String → String
  | [] => ""
  | p :: rest => p ++ concatAll rest

/-- One full `INSERT INTO schema.table (cols) VALUES (...);` statement for
one scanned row (source lines 889–934). -/
def insertStatement (tableName schema : String) (columnNames : List String)
    (vals : List GoValue) : String :=
  "INSERT INTO " ++ schema ++ "." ++ tableName ++ " (" ++ goJoin ", " columnNames ++
    ") VALUES (" ++ insertValuesLoop vals.length 0 vals ++ ");\n"

/-- The `valueParams` slice built for one row by the COPY serializer: one
entry appended per value, skipped entirely on the time-parse `continue`. -/
def copyValueParams (vals : List GoValue) : List String :=
  vals.filterMap encodeValueCOPY

/-! ## Record streamer: producer goroutine and channel discipline

The producer goroutine of each broadcast function is modelled as a
function from the database's response to the trace of its channel: the
fragments sent, in order, and whether the channel was closed before the
goroutine returned.  `defer close(ch)` is registered only *after* the
query-error early return, so that return leaves `closed = false`. -/

/-- One `rows.Next()/rows.Scan` step: either the scan fails or yields the
row's values. -/
inductive ScanRow where
  | scanError
  | ok (vals : List GoValue)
  deriving DecidableEq, Repr

/-- The database's response to the producer's `SELECT * FROM schema.table`:
the query itself may fail; on success, `rows.Columns()` may fail (`none`)
or yield the column names, and the row iterator yields `rows`. -/
inductive QueryOutcome where
  | queryError
  | ok (columnsResult : Option (List String)) (rows : List ScanRow)
  deriving DecidableEq, Repr

/-- What happened on the producer's output channel: the fragments sent (in
order) and whether `close(ch)` ran before the goroutine returned. -/
structure ChanTrace where
  sent : List String
  closed : Bool
  deriving DecidableEq, Repr

/-- The row loop of the INSERT producer: a scan error returns (the deferred
`close(ch)` fires), otherwise one statement is sent per row. -/
def insertRowsLoop (tableName schema : String) (cols : List String) :
    List ScanRow → List String × Bool
  | [] => ([], true)
  | .scanError :: _ => ([], true)
  | .ok vals :: rest =>
    let out := insertRowsLoop tableName schema cols rest
    (insertStatement tableName schema cols vals :: out.1, out.2)

/-- `broadcastTableRecordsINSERT` (source lines 859–940): the first
component is the value the function returns to `Pack` (always `nil`,
modelled `none` — the commented-out error returns never run); the second
is the spawned goroutine's channel trace.  On a query error the goroutine
returns before `defer close(ch)` is registered, so nothing is sent and the
channel is never closed. -/
def broadcastTableRecordsINSERT (tableName schema : String) :
    QueryOutcome → Option String × ChanTrace
  | .queryError => (none, ⟨[], false⟩)
  | .ok none _ => (none, ⟨[], true⟩)
  | .ok (some cols) rows =>
    let out := insertRowsLoop tableName schema cols rows
    (none, ⟨out.1, out.2⟩)

/-- The row loop of the COPY producer: each row sends its tab-joined
`valueParams` and then `"\n"`; after the loop the end-of-block marker
`"\\.\n"` is sent; a scan error returns early (deferred close fires, no
marker). -/
def copyRowsLoop : List ScanRow → List String × Bool
  | [] => (["\\.\n"], true)
  | .scanError :: _ => ([], true)
  | .ok vals :: rest =>
    let out := copyRowsLoop rest
    (goJoin "\t" (copyValueParams vals) :: "\n" :: out.1, out.2)

/-- `broadcastTableRecordsCOPY` (source lines 942–1024): header line then
row lines then end-of-block marker; same channel discipline as the INSERT
producer, including the unclosed channel on a query error. -/
def broadcastTableRecordsCOPY (tableName schema : String) :
    QueryOutcome → Option String × ChanTrace
  | .queryError => (none, ⟨[], false⟩)
  | .ok none _ => (none, ⟨[], true⟩)
  | .ok (some cols) rows =>
    let out := copyRowsLoop rows
    (none,
     ⟨("COPY " ++ schema ++ "." ++ tableName ++ " (" ++ goJoin ", " cols ++
        ") FROM stdin;\n") :: out.1, out.2⟩)

/-! ## DDL synthesizer: CREATE TABLE (`getCreateTableStatement`)

One scanned row of the column-metadata query, with `sql.NullString` /
`sql.NullInt64` fields as options. -/

structure ColumnRow where
  columnName : Option String
  dataType : Option String
  isNullable : Option String
  columnDefault : Option String
  characterMaximumLength : Option Int
  numericPrecision : Option Int
  numericScale : Option Int
  udtName : Option String
  typeSchema : Option String
  deriving DecidableEq, Repr

/-- Embeds `strings.Contains(haystack, needle)` over character lists. -/
def hasInfixAux (needle : List Char) : List Char → Bool
  | [] => needle.isEmpty
  | c :: cs => needle.isPrefixOf (c :: cs) || hasInfixAux needle cs

/-- `strings.Contains` on `String`. -/
def goContains (s sub : String) : Bool := hasInfixAux sub.data s.data

/-- The body of the `ReplaceAllStringFunc` over the regular expression
`nextval\('([^']*)'::regclass\)`: scans left to right; at each position a
match requires the literal `nextval('`, then a (possibly empty) run of
non-quote characters, then the literal `'::regclass)`.  The captured
sequence name is schema-qualified when it contains no `.`, and scanning
resumes after the match; non-matching characters are copied unchanged. -/
def nextvalScanAux (schema : String) : List Char → List Char
  | [] => []
  | c :: cs =>
    if "nextval('".data.isPrefixOf (c :: cs) then
      let after := (c :: cs).drop 9
      let seqChars := after.takeWhile (· ≠ '\'')
      let rest := after.dropWhile (· ≠ '\'')
      if "'::regclass)".data.isPrefixOf rest then
        let seqName := String.mk seqChars
        let qualified := if seqChars.contains '.' then seqName else schema ++ "." ++ seqName
        ("nextval('" ++ qualified ++ "'::regclass)").data ++ nextvalScanAux schema (rest.drop 12)
      else c :: nextvalScanAux schema cs
    else c :: nextvalScanAux schema cs
termination_by l => l.length
decreasing_by
  · have h1 : ((c :: cs).drop 9).length ≤ cs.length := by
      simp only [List.length_drop, List.length_cons]; omega
    have h2 : (((c :: cs).drop 9).dropWhile (· ≠ '\'')).length ≤ ((c :: cs).drop 9).length :=
      (List.dropWhile_sublist _).length_le
    have h3 : ((((c :: cs).drop 9).dropWhile (· ≠ '\'')).drop 12).length ≤
        (((c :: cs).drop 9).dropWhile (· ≠ '\'')).length := by
      simp only [List.length_drop]; omega
    simp only [List.length_cons]
    omega
  · simp only [List.length_cons]; omega
  · simp only [List.length_cons]; omega

/-- The default-expression rewriting applied when a column default contains
`nextval(` (source lines 454–467): sequence names inside
`nextval('...'::regclass)` are schema-qualified when not already
qualified. -/
def rewriteDefault (schema defaultValue : String) : String :=
  if goContains defaultValue "nextval(" then ⟨nextvalScanAux schema defaultValue.data⟩
  else defaultValue

/-- The `precisionTypes` map (lines 433–438): lookup of a missing key in a
Go map of `bool` yields `false`. -/
def precisionTypes (dataType : String) : Bool :=
  dataType = "numeric" || dataType = "decimal" || dataType = "timestamp" ||
    dataType = "interval"

/-- The type-text priority chain of `getCreateTableStatement` (lines
422–431): underscore-prefixed internal name → element type plus `[]`;
otherwise a user-defined type with a known (valid, non-empty) type schema
→ `typeschema.typename`; otherwise the declared data type unchanged. -/
def columnTypeText (dataType udtName : String) (typeSchema : Option String) : String :=
  if goStartsWith udtName "_" then udtName.drop 1 ++ "[]"
  else if dataType = "USER-DEFINED" ∧ typeSchema.isSome ∧ nullStr typeSchema ≠ "" then
    nullStr typeSchema ++ "." ++ udtName
  else dataType

/-- The row loop of `getCreateTableStatement` (lines 404–471): a row whose
`column_name` or `data_type` is not valid is skipped (`continue`); a
remaining row with an invalid `udt_name` is a hard error; otherwise the
column definition is assembled and collected. -/
def buildColumnDefs (schema : String) : List ColumnRow → Except String (List String)
  | [] => .ok []
  | r :: rest =>
    if r.columnName.isSome ∧ r.dataType.isSome then
      if r.udtName.isSome then
        let columnName := nullStr r.columnName
        let dataType := nullStr r.dataType
        let udtName := nullStr r.udtName
        let base := columnName ++ " " ++ columnTypeText dataType udtName r.typeSchema
        let withLen :=
          match r.characterMaximumLength with
          | some len => base ++ "(" ++ toString len ++ ")"
          | none =>
            if precisionTypes dataType ∧ r.numericPrecision.isSome then
              match r.numericScale with
              | some scale =>
                base ++ "(" ++ toString (nullInt r.numericPrecision) ++ "," ++
                  toString scale ++ ")"
              | none => base ++ "(" ++ toString (nullInt r.numericPrecision) ++ ")"
            else base
        let withNotNull := if nullStr r.isNullable = "NO" then withLen ++ " NOT NULL" else withLen
        let withDefault :=
          match r.columnDefault with
          | some d => withNotNull ++ " DEFAULT " ++ rewriteDefault schema d
          | none => withNotNull
        (buildColumnDefs schema rest).map (withDefault :: ·)
      else .error ("invalid udtName for column " ++ nullStr r.columnName)
    else buildColumnDefs schema rest

/-- `getCreateTableStatement` (source lines 378–480) as a function of the
scanned column rows: an empty collected column list (no table matched) is
an error, otherwise the `CREATE TABLE` text is assembled. -/
def getCreateTableStatement (tableName schema : String) (rows : List ColumnRow) :
    Except String String :=
  match buildColumnDefs schema rows with
  | .error e => .error e
  | .ok columnDefs =>
    if columnDefs.length = 0 then .error ("Table '" ++ tableName ++ "' not found")
    else
      .ok ("CREATE TABLE " ++ schema ++ "." ++ tableName ++ " (\n\t" ++
        goJoin ",\n\t" columnDefs ++ "\n);")

/-! ## DDL synthesizer: CREATE SEQUENCE (`getSequenceStatements`) -/

/-- `PostgresBigintMax` (source line 20). -/
def PostgresBigintMax : Int := 9223372036854775807

/-- The `minvalueClause` computed per sequence row (lines 745–748). -/
def minvalueClause (minimumValue : Int) : String :=
  if minimumValue = 1 then "\n\tNO MINVALUE"
  else "\n\tMINVALUE " ++ toString minimumValue

/-- The `maxvalueClause` computed per sequence row (lines 750–753). -/
def maxvalueClause (maximumValue : Int) : String :=
  if maximumValue = PostgresBigintMax then "\n\tNO MAXVALUE"
  else "\n\tMAXVALUE " ++ toString maximumValue

/-- The `cycle` clause (lines 740–743). -/
def cycleClause (cycleOption : String) : String :=
  if cycleOption = "YES" then "\n\tCYCLE" else ""

/-- One scanned row of the sequence-metadata query. -/
structure SequenceRow where
  name : String
  schema : String
  startValue : Int
  minimumValue : Int
  maximumValue : Int
  increment : Int
  cycleOption : String
  owner : String
  deriving DecidableEq, Repr

/-- The `createStmt` assembled per sequence row (lines 755–756). -/
def createSequenceStatement (r : SequenceRow) : String :=
  "CREATE SEQUENCE " ++ r.schema ++ "." ++ r.name ++ "\n\tSTART WITH " ++
    toString r.startValue ++ minvalueClause r.minimumValue ++
    maxvalueClause r.maximumValue ++ "\n\tINCREMENT BY " ++ toString r.increment ++
    cycleClause r.cycleOption ++ "\n;\n"

/-- The `alterStmt` per sequence row (line 758). -/
def alterSequenceStatement (r : SequenceRow) : String :=
  "ALTER SEQUENCE " ++ r.schema ++ "." ++ r.name ++ " OWNER TO " ++ r.owner ++ ";"

/-- `getSequenceStatements` (lines 698–769) over the scanned rows. -/
def getSequenceStatements (rows : List SequenceRow) : String :=
  goJoin "\n\n" (rows.map fun r => createSequenceStatement r ++ "\n" ++ alterSequenceStatement r)

/-! ## DDL synthesizer: CREATE TYPE ... AS ENUM -/

/-- `fmt.Sprintf("\t'%s'", label)` collected per enum label row, in
`enumsortorder` iteration order (lines 841–848). -/
def quotedLabel (label : String) : String := "\t'" ++ label ++ "'"

/-- `getCreateEnumTypeStatement` (source lines 822–857) as a function of
the labels in the order the `ORDER BY e.enumsortorder` query returns
them. -/
def getCreateEnumTypeStatement (typeName schema : String) (labels : List String) : String :=
  "CREATE TYPE " ++ schema ++ "." ++ typeName ++ " AS ENUM (\n" ++
    goJoin ", \n" (labels.map quotedLabel) ++ "\n);"

/-- State machine recovering the single-quoted chunks of a character
stream: outside a quoted chunk (`inQuote = false`) characters are skipped
until a quote opens a chunk; inside a chunk characters accumulate (in
reverse) in `acc` until the closing quote emits the chunk. -/
def extractQuotedAux : Bool → List Char → List Char → List (List Char)
  | _, _, [] => []
  | true, acc, c :: cs =>
    if c = '\'' then acc.reverse :: extractQuotedAux false [] cs
    else extractQuotedAux true (c :: acc) cs
  | false, _, c :: cs =>
    if c = '\'' then extractQuotedAux true [] cs
    else extractQuotedAux false [] cs

/-- The sequence of single-quoted chunks of a character stream: the text
between the (2k+1)-th and (2k+2)-th quote characters, in order.  Applied
to an emitted `CREATE TYPE ... AS ENUM` statement it recovers the emitted
label sequence. -/
def extractQuoted (l : List Char) : List (List Char) :=
  extractQuotedAux false [] l

/-- The single-quoted chunks of a string, as strings. -/
def extractLabels (s : String) : List String :=
  (extractQuoted s.data).map String.mk

/-! ## Orchestrator: `init`, `cleanup` and the lock lifecycle of `Pack`

Operating-system calls are modelled by an environment record fixing each
call's outcome.  `os.Remove` of the lock file in `cleanup` is modelled as
succeeding whenever the file exists (its error is discarded by the
deferred call anyway). -/

/-- The `Options` struct (source lines 36–40). -/
structure PackOptions where
  dataOnly : Bool
  compress : Bool
  recordMode : String
  deriving DecidableEq, Repr

/-- Error message of the record-mode validation (line 80). -/
def invalidRecordModeMsg : String :=
  "invalid value for record mode. Use either 'INSERT' or 'COPY'."

/-- Outcomes of the environment's operating-system and standard-input
interactions during `init`. -/
structure InitEnv where
  /-- `os.Stat(outputFilename)` succeeds (the output file already exists). -/
  outputFileExists : Bool
  /-- the interactive overwrite confirmation reads `y`. -/
  promptYes : Bool
  /-- `os.WriteFile(outputFilename, ...)` fails. -/
  writeOutputFails : Bool
  /-- `os.WriteFile(lockFilename, ...)` fails. -/
  writeLockFails : Bool
  deriving DecidableEq, Repr

/-- How `init` ended: a returned error, the `os.Exit(0)` on overwrite
refusal, or success (carrying the lower-cased record mode it stored). -/
inductive InitOutcome where
  | fatalError (msg : String)
  | abortExit
  | initialized (recordModeLower : String)
  deriving DecidableEq, Repr

/-- Result of `init`: its outcome plus which of the two files were
created. -/
structure InitResult where
  outcome : InitOutcome
  outputCreated : Bool
  lockCreated : Bool
  deriving DecidableEq, Repr

/-- `Manager.init` (source lines 77–110): validates the record mode,
interactively confirms an existing output file, then creates the empty
output file and the lock file.  Every failure before a file-creating call
leaves that file uncreated. -/
def initRun (opts : PackOptions) (env : InitEnv) : InitResult :=
  let recordMode := goToLower opts.recordMode
  if ¬(recordMode = "insert" ∨ recordMode = "copy") then
    ⟨.fatalError invalidRecordModeMsg, false, false⟩
  else if env.outputFileExists ∧ ¬env.promptYes then
    ⟨.abortExit, false, false⟩
  else if env.writeOutputFails then
    ⟨.fatalError "cannot write to output file", false, false⟩
  else if env.writeLockFails then
    ⟨.fatalError "cannot create lock file", true, false⟩
  else ⟨.initialized recordMode, true, true⟩

/-- Outcomes of the operating-system calls `Pack` makes after `init`. -/
structure PackEnv where
  initEnv : InitEnv
  /-- `os.Create(outputFilename)` at the start of the writing phase fails. -/
  createOutputFails : Bool
  /-- some catalog query or write in the per-schema writing phase fails. -/
  schemaPhaseError : Bool
  /-- `os.Open(outputFilename)` in the compression branch fails — the code
  answers this with `log.Fatal`, which terminates the process without
  running deferred functions. -/
  openCompressFails : Bool
  /-- `io.Copy` through the brotli writer fails. -/
  copyCompressFails : Bool
  /-- `os.Remove` of the uncompressed file fails. -/
  removePlainFails : Bool
  deriving DecidableEq, Repr

/-- How the `Pack` job ended. -/
inductive PackOutcome where
  /-- `Pack` returned `nil`. -/
  | ok
  /-- `Pack` returned an error; deferred functions ran on the way out. -/
  | errorReturn (msg : String)
  /-- `os.Exit(0)` inside `init` (overwrite refused): clean process exit. -/
  | cleanExit
  /-- `log.Fatal` in the compression branch: process terminated without
  running deferred functions. -/
  | fatalExit
  deriving DecidableEq, Repr

/-- Result of a `Pack` run: its outcome, whether the lock artifact was
created during initialization, and whether it still exists when the job
ends. -/
structure PackResult where
  outcome : PackOutcome
  lockCreated : Bool
  lockExists : Bool
  deriving DecidableEq, Repr

/-- `Manager.Pack` (source lines 122–327), restricted to its control flow
and the lock artifact: `init`, then `defer m.cleanup()` (which removes the
lock on every *return* path from this point on), the writing phase, and
the optional compression phase with its `log.Fatal` exit. -/
def packRun (opts : PackOptions) (env : PackEnv) : PackResult :=
  match initRun opts env.initEnv with
  | ⟨.fatalError msg, _, lockC⟩ =>
    -- `defer m.cleanup()` is not yet registered on this path: whatever
    -- `init` left behind stays (its error paths never create the lock).
    ⟨.errorReturn ("cannot initialize pack job: " ++ msg), lockC, lockC⟩
  | ⟨.abortExit, _, _⟩ => ⟨.cleanExit, false, false⟩
  | ⟨.initialized _, _, _⟩ =>
    -- `defer m.cleanup()` is registered from here on: the lock (created by
    -- the successful `init`) is removed on every *return* path below.
    if env.createOutputFails then
      ⟨.errorReturn "error while creating output file", true, false⟩
    else if env.schemaPhaseError then
      ⟨.errorReturn "error while packing schema", true, false⟩
    else if opts.compress then
      if env.openCompressFails then ⟨.fatalExit, true, true⟩
      else if env.copyCompressFails then
        ⟨.errorReturn "error while compressing pack file", true, false⟩
      else if env.removePlainFails then
        ⟨.errorReturn "error while deleting plain pack file", true, false⟩
      else ⟨.ok, true, false⟩
    else ⟨.ok, true, false⟩

/-! ## Orchestrator: per-schema output ordering of `Pack`

The writing phase of `Pack` for one schema (source lines 154–288) as the
ordered list of `WriteString` calls it performs on the success path.  The
texts produced by the statement-synthesis queries and the record fragments
drained from a table's channel are parameters. -/

/-- The per-schema inputs `Pack` obtains from the synthesizer and the
record streamer. -/
structure SchemaInput where
  tables : List String
  typeStmt : String
  domainStmt : String
  functionStmt : String
  sequenceStmt : String
  /-- `getCreateTableStatement` text per table. -/
  createStmt : String → String
  /-- the record fragments drained from the table's channel, in order. -/
  recordFragments : String → List String
  /-- `getPrimaryKeyStatements` text per table. -/
  pkStmt : String → String
  /-- `getForeignKeyStatements` text per table. -/
  fkStmt : String → String

/-- The `WriteString` calls `Pack` performs for one schema, in program
order (source lines 162–287). -/
def packSchemaWrites (si : SchemaInput) : List String :=
  ["\n-- START OF DROPPING TABLES\n"] ++
  si.tables.map (fun t => ("DROP TABLE IF EXISTS " ++ t ++ ";") ++ "\n") ++
  ["-- END OF DROPPING TABLES\n"] ++
  ["\n-- START OF CREATING TYPES\n", si.typeStmt ++ "\n", "-- END OF CREATING TYPES\n"] ++
  ["\n-- START OF DOMAINS\n", si.domainStmt ++ "\n", "-- END OF DOMAINS\n"] ++
  ["\n-- START OF FUNCTIONS\n", si.functionStmt ++ "\n", "-- END OF FUNCTIONS\n"] ++
  ["\n-- START OF SEQUENCES\n", si.sequenceStmt ++ "\n", "-- END OF SEQUENCES\n"] ++
  ["\n-- START OF CREATING TABLES\n"] ++
  si.tables.map (fun t => si.createStmt t ++ "\n\n") ++
  ["-- END OF CREATING TABLES\n"] ++
  ["\n-- START OF RECORDS\n"] ++
  (si.tables.map fun t => ("\n-- Table: " ++ t ++ "\n") :: si.recordFragments t).flatten ++
  ["-- END OF RECORDS\n"] ++
  ["\n-- START OF CONSTRAINTS\n"] ++
  (si.tables.map fun t =>
    [("\n-- Constraint: PRIMARY KEY\tTable: " ++ t ++ "\n"), si.pkStmt t ++ "\n"]).flatten ++
  (si.tables.map fun t =>
    [("\n-- Constraint: FOREIGN KEY\tTable: " ++ t ++ "\n"), si.fkStmt t ++ "\n"]).flatten ++
  ["-- END OF CONSTRAINTS\n"]

/-! The nine output sections named by the specification, each as the
writes it consists of (section banners included with their sections; the
single constraints banner pair opens the primary-key section and closes
the foreign-key section). -/

/-- Section 1: `DROP TABLE IF EXISTS` for every table. -/
def dropSectionWrites (si : SchemaInput) : List String :=
  ["\n-- START OF DROPPING TABLES\n"] ++
  si.tables.map (fun t => ("DROP TABLE IF EXISTS " ++ t ++ ";") ++ "\n") ++
  ["-- END OF DROPPING TABLES\n"]

/-- Section 2: enum type creations. -/
def typeSectionWrites (si : SchemaInput) : List String :=
  ["\n-- START OF CREATING TYPES\n", si.typeStmt ++ "\n", "-- END OF CREATING TYPES\n"]

/-- Section 3: domain creations. -/
def domainSectionWrites (si : SchemaInput) : List String :=
  ["\n-- START OF DOMAINS\n", si.domainStmt ++ "\n", "-- END OF DOMAINS\n"]

/-- Section 4: function creations. -/
def functionSectionWrites (si : SchemaInput) : List String :=
  ["\n-- START OF FUNCTIONS\n", si.functionStmt ++ "\n", "-- END OF FUNCTIONS\n"]

/-- Section 5: sequence creations and ownership transfers. -/
def sequenceSectionWrites (si : SchemaInput) : List String :=
  ["\n-- START OF SEQUENCES\n", si.sequenceStmt ++ "\n", "-- END OF SEQUENCES\n"]

/-- Section 6: table creations. -/
def tableSectionWrites (si : SchemaInput) : List String :=
  ["\n-- START OF CREATING TABLES\n"] ++
  si.tables.map (fun t => si.createStmt t ++ "\n\n") ++
  ["-- END OF CREATING TABLES\n"]

/-- Section 7: per-table records. -/
def recordsSectionWrites (si : SchemaInput) : List String :=
  ["\n-- START OF RECORDS\n"] ++
  (si.tables.map fun t => ("\n-- Table: " ++ t ++ "\n") :: si.recordFragments t).flatten ++
  ["-- END OF RECORDS\n"]

/-- Section 8: primary-key constraints for all tables. -/
def primaryKeySectionWrites (si : SchemaInput) : List String :=
  ["\n-- START OF CONSTRAINTS\n"] ++
  (si.tables.map fun t =>
    [("\n-- Constraint: PRIMARY KEY\tTable: " ++ t ++ "\n"), si.pkStmt t ++ "\n"]).flatten

/-- Section 9: foreign-key constraints for all tables. -/
def foreignKeySectionWrites (si : SchemaInput) : List String :=
  (si.tables.map fun t =>
    [("\n-- Constraint: FOREIGN KEY\tTable: " ++ t ++ "\n"), si.fkStmt t ++ "\n"]).flatten ++
  ["-- END OF CONSTRAINTS\n"]

/-! ## Helper lemmas -/

theorem data_append (a b : String) : (a ++ b).data = a.data ++ b.data := rfl

theorem insertRowsLoop_closed (tableName schema : String) (cols : List String) :
    ∀ rows : List ScanRow, (insertRowsLoop tableName schema cols rows).2 = true
  | [] => rfl
  | .scanError :: _ => rfl
  | .ok vals :: rest => by
    simpa [insertRowsLoop] using insertRowsLoop_closed tableName schema cols rest

theorem copyRowsLoop_closed :
    ∀ rows : List ScanRow, (copyRowsLoop rows).2 = true
  | [] => rfl
  | .scanError :: _ => rfl
  | .ok vals :: rest => by
    simpa [copyRowsLoop] using copyRowsLoop_closed rest

theorem initRun_cases (opts : PackOptions) (env : InitEnv) :
    (initRun opts env).lockCreated = false ∨
    ∃ rm, (initRun opts env).outcome = .initialized rm := by
  unfold initRun
  by_cases hm : ¬(goToLower opts.recordMode = "insert" ∨ goToLower opts.recordMode = "copy")
  · rw [if_pos hm]; simp
  · rw [if_neg hm]; split_ifs <;> simp

theorem minvalue_text_ne (m : Int) : "\n\tMINVALUE " ++ toString m ≠ "\n\tNO MINVALUE" := by
  intro h
  have h2 := congrArg String.data h
  rw [data_append] at h2
  have e1 : ("\n\tMINVALUE ").data = ['\n', '\t', 'M', 'I', 'N', 'V', 'A', 'L', 'U', 'E', ' '] :=
    rfl
  have e2 : ("\n\tNO MINVALUE").data = ['\n', '\t', 'N', 'O', ' ', 'M', 'I', 'N', 'V', 'A', 'L', 'U', 'E'] :=
    rfl
  rw [e1, e2] at h2
  simp at h2

theorem maxvalue_text_ne (m : Int) : "\n\tMAXVALUE " ++ toString m ≠ "\n\tNO MAXVALUE" := by
  intro h
  have h2 := congrArg String.data h
  rw [data_append] at h2
  have e1 : ("\n\tMAXVALUE ").data = ['\n', '\t', 'M', 'A', 'X', 'V', 'A', 'L', 'U', 'E', ' '] :=
    rfl
  have e2 : ("\n\tNO MAXVALUE").data = ['\n', '\t', 'N', 'O', ' ', 'M', 'A', 'X', 'V', 'A', 'L', 'U', 'E'] :=
    rfl
  rw [e1, e2] at h2
  simp at h2

/-! ## Claim C1

The producers' channel discipline, evaluated on each of the three kinds of
database response.  A failed row-fetch query leaves the channel unclosed
(`closed = false`) with nothing sent — the consumer's `for record := range
ch` loop then blocks forever — while the broadcast function itself still
returns success (`none`); every other outcome, including a row that fails
to scan mid-stream, ends with the channel closed. -/

/-- C1: in both INSERT and COPY mode the broadcast call always returns
success, and the producing goroutine closes its output channel on a
columns failure, a scan failure or normal exhaustion — but *not* on a
row-fetch query failure, where it returns before `defer close(ch)` is
registered, sending nothing and never closing the channel. -/
theorem broadcast_channel_closure (tableName schema : String)
    (colsRes : Option (List String)) (rows : List ScanRow) :
    (broadcastTableRecordsINSERT tableName schema .queryError).1 = none ∧
    (broadcastTableRecordsCOPY tableName schema .queryError).1 = none ∧
    (broadcastTableRecordsINSERT tableName schema (.ok colsRes rows)).1 = none ∧
    (broadcastTableRecordsCOPY tableName schema (.ok colsRes rows)).1 = none ∧
    (broadcastTableRecordsINSERT tableName schema .queryError).2 = ⟨[], false⟩ ∧
    (broadcastTableRecordsCOPY tableName schema .queryError).2 = ⟨[], false⟩ ∧
    (broadcastTableRecordsINSERT tableName schema (.ok colsRes rows)).2.closed = true ∧
    (broadcastTableRecordsCOPY tableName schema (.ok colsRes rows)).2.closed = true := by
  refine ⟨rfl, rfl, ?_, ?_, rfl, rfl, ?_, ?_⟩ <;>
    cases colsRes <;>
      simp [broadcastTableRecordsINSERT, broadcastTableRecordsCOPY,
        insertRowsLoop_closed, copyRowsLoop_closed]

/-! ## Claim C4 -/

/-- C4: for every schema, the writes `Pack` performs are exactly the nine
specified sections in order: drops, enum types, domains, functions,
sequences, table creations, per-table records, primary-key constraints for
all tables, and finally foreign-key constraints for all tables. -/
theorem pack_section_order (si : SchemaInput) :
    packSchemaWrites si =
      dropSectionWrites si ++ typeSectionWrites si ++ domainSectionWrites si ++
      functionSectionWrites si ++ sequenceSectionWrites si ++ tableSectionWrites si ++
      recordsSectionWrites si ++ primaryKeySectionWrites si ++
      foreignKeySectionWrites si := by
  simp only [packSchemaWrites, dropSectionWrites, typeSectionWrites, domainSectionWrites,
    functionSectionWrites, sequenceSectionWrites, tableSectionWrites, recordsSectionWrites,
    primaryKeySectionWrites, foreignKeySectionWrites, List.append_assoc, List.cons_append,
    List.nil_append]

/-! ## Claim C5 -/

/-- C5: the rendered column type text follows the priority: an
underscore-prefixed internal type name renders as the element type with
`[]` appended; otherwise a user-defined declared type with a known type
schema renders as `typeschema.typename`; otherwise the catalog's declared
type name is used unchanged. -/
theorem column_type_priority (dataType udtName : String) (typeSchema : Option String) :
    (goStartsWith udtName "_" = true →
      columnTypeText dataType udtName typeSchema = udtName.drop 1 ++ "[]") ∧
    (goStartsWith udtName "_" = false →
      (dataType = "USER-DEFINED" ∧ typeSchema.isSome ∧ nullStr typeSchema ≠ "") →
      columnTypeText dataType udtName typeSchema = nullStr typeSchema ++ "." ++ udtName) ∧
    (goStartsWith udtName "_" = false →
      ¬(dataType = "USER-DEFINED" ∧ typeSchema.isSome ∧ nullStr typeSchema ≠ "") →
      columnTypeText dataType udtName typeSchema = dataType) := by
  refine ⟨fun h1 => ?_, fun h1 h2 => ?_, fun h1 h2 => ?_⟩
  · simp [columnTypeText, h1]
  · simp [columnTypeText, h1, h2]
  · simp [columnTypeText, h1, h2]

/-- C5 witness: the array branch fires for `_text` and renders `text[]`;
the user-defined branch renders a schema-qualified name; the fall-through
keeps the declared type. -/
theorem column_type_priority_witness :
    columnTypeText "ARRAY" "_text" (some "public") = "text[]" ∧
    columnTypeText "USER-DEFINED" "mood" (some "public") = "public.mood" ∧
    columnTypeText "integer" "int4" (some "pg_catalog") = "integer" := by
  refine ⟨(column_type_priority "ARRAY" "_text" (some "public")).1 (by decide),
    ?_, ?_⟩
  · have h := (column_type_priority "USER-DEFINED" "mood" (some "public")).2.1
      (by decide) (by refine ⟨rfl, rfl, ?_⟩; decide)
    simpa using h
  · have h := (column_type_priority "integer" "int4" (some "pg_catalog")).2.2
      (by decide) (by intro hc; simp at hc)
    exact h

/-! ## Claim C6 -/

/-- C6: the synthesized sequence statement consists of the fixed template
around the two bound clauses, and `NO MINVALUE` is rendered exactly when
`minimum_value = 1`, `NO MAXVALUE` exactly when `maximum_value` is the
64-bit signed maximum, with explicit `MINVALUE n` / `MAXVALUE n` for every
other bound. -/
theorem sequence_bounds (r : SequenceRow) :
    createSequenceStatement r =
      "CREATE SEQUENCE " ++ r.schema ++ "." ++ r.name ++ "\n\tSTART WITH " ++
        toString r.startValue ++ minvalueClause r.minimumValue ++
        maxvalueClause r.maximumValue ++ "\n\tINCREMENT BY " ++ toString r.increment ++
        cycleClause r.cycleOption ++ "\n;\n" ∧
    (minvalueClause r.minimumValue = "\n\tNO MINVALUE" ↔ r.minimumValue = 1) ∧
    (r.minimumValue ≠ 1 →
      minvalueClause r.minimumValue = "\n\tMINVALUE " ++ toString r.minimumValue) ∧
    (maxvalueClause r.maximumValue = "\n\tNO MAXVALUE" ↔
      r.maximumValue = 9223372036854775807) ∧
    (r.maximumValue ≠ 9223372036854775807 →
      maxvalueClause r.maximumValue = "\n\tMAXVALUE " ++ toString r.maximumValue) := by
  refine ⟨rfl, ⟨fun h => ?_, fun h => ?_⟩, fun h => ?_, ⟨fun h => ?_, fun h => ?_⟩, fun h => ?_⟩
  · by_contra hne
    rw [minvalueClause, if_neg hne] at h
    exact minvalue_text_ne _ h
  · rw [minvalueClause, if_pos h]
  · rw [minvalueClause, if_neg h]
  · by_contra hne
    rw [maxvalueClause, if_neg (by simpa [PostgresBigintMax] using hne)] at h
    exact maxvalue_text_ne _ h
  · rw [maxvalueClause, if_pos (by simpa [PostgresBigintMax] using h)]
  · rw [maxvalueClause, if_neg (by simpa [PostgresBigintMax] using h)]

/-- C6 witness: interior bounds render explicitly, sentinel bounds render
as the unbounded clauses. -/
theorem sequence_bounds_witness :
    minvalueClause 2 = "\n\tMINVALUE 2" ∧ maxvalueClause 50 = "\n\tMAXVALUE 50" ∧
    minvalueClause 1 = "\n\tNO MINVALUE" ∧
    maxvalueClause 9223372036854775807 = "\n\tNO MAXVALUE" := by
  have h := sequence_bounds ⟨"s1", "public", 5, 2, 50, 1, "NO", "bob"⟩
  have h1 : minvalueClause 2 = "\n\tMINVALUE " ++ toString (2 : Int) := h.2.2.1 (by decide)
  have h2 : maxvalueClause 50 = "\n\tMAXVALUE " ++ toString (50 : Int) := h.2.2.2.2 (by decide)
  have h' := sequence_bounds ⟨"s2", "public", 5, 1, 9223372036854775807, 1, "NO", "bob"⟩
  have h3 : minvalueClause 1 = "\n\tNO MINVALUE" := h'.2.1.mpr (by decide)
  have h4 : maxvalueClause 9223372036854775807 = "\n\tNO MAXVALUE" := h'.2.2.2.1.mpr (by decide)
  exact ⟨by rw [h1]; rfl, by rw [h2]; rfl, h3, h4⟩

/-! ## Claim C9 -/

/-- C9: `init` passes the record-mode check exactly for strings whose
lower-casing is `insert` or `copy`; any other value returns the fatal
configuration error with neither the output file nor the lock file
created. -/
theorem record_mode_validation (opts : PackOptions) (env : InitEnv) :
    ((initRun opts env).outcome ≠ .fatalError invalidRecordModeMsg ↔
      (goToLower opts.recordMode = "insert" ∨ goToLower opts.recordMode = "copy")) ∧
    (¬(goToLower opts.recordMode = "insert" ∨ goToLower opts.recordMode = "copy") →
      initRun opts env = ⟨.fatalError invalidRecordModeMsg, false, false⟩) := by
  unfold initRun
  by_cases hm : ¬(goToLower opts.recordMode = "insert" ∨ goToLower opts.recordMode = "copy")
  · rw [if_pos hm]; simp_all
  · rw [if_neg hm]
    split_ifs <;> simp_all [invalidRecordModeMsg] <;> tauto

/-- C9 witness: `INSERT` and `Copy` pass the check case-insensitively,
`csv` fails it before any file is created. -/
theorem record_mode_validation_witness :
    initRun ⟨false, false, "csv"⟩ ⟨false, false, false, false⟩ =
      ⟨.fatalError invalidRecordModeMsg, false, false⟩ ∧
    (initRun ⟨false, false, "INSERT"⟩ ⟨false, false, false, false⟩).outcome ≠
      .fatalError invalidRecordModeMsg ∧
    (initRun ⟨false, false, "Copy"⟩ ⟨false, false, false, false⟩).outcome ≠
      .fatalError invalidRecordModeMsg := by
  refine ⟨(record_mode_validation ⟨false, false, "csv"⟩ ⟨false, false, false, false⟩).2
    (by decide), ?_, ?_⟩
  · exact (record_mode_validation ⟨false, false, "INSERT"⟩
      ⟨false, false, false, false⟩).1.mpr (by decide)
  · exact (record_mode_validation ⟨false, false, "Copy"⟩
      ⟨false, false, false, false⟩).1.mpr (by decide)

/-! ## Claim C2

The lock is removed by the deferred `cleanup` on every path on which
`Pack` *returns* — but the compression branch answers a failed
`os.Open` with `log.Fatal`, which terminates the process without running
deferred functions, so on that exit path the lock artifact survives. -/

/-- C2 counterexample: a run with compression requested in which reopening
the output file fails.  `init` succeeded (the lock was created), the job
ends (via `log.Fatal`), and the lock artifact still exists. -/
theorem lock_survives_fatal_compress :
    (packRun ⟨false, true, "copy"⟩
      ⟨⟨false, false, false, false⟩, false, false, true, false, false⟩).lockCreated = true ∧
    (packRun ⟨false, true, "copy"⟩
      ⟨⟨false, false, false, false⟩, false, false, true, false, false⟩).outcome =
      PackOutcome.fatalExit ∧
    (packRun ⟨false, true, "copy"⟩
      ⟨⟨false, false, false, false⟩, false, false, true, false, false⟩).lockExists = true := by
  refine ⟨?_, ?_, ?_⟩ <;> decide

/-- C2 amended: in every run, either the lock artifact was never created,
or the run ended in the `log.Fatal` exit of the compression branch, or the
lock artifact no longer exists when the job ends; equivalently, the lock
is removed on every exit path on which `Pack` returns to its caller
(success or error). -/
theorem lock_released_on_return (opts : PackOptions) (env : PackEnv) :
    (packRun opts env).lockCreated = false ∨
    (packRun opts env).outcome = PackOutcome.fatalExit ∨
    (packRun opts env).lockExists = false := by
  unfold packRun
  split
  next msg oc lockC heq =>
    rcases initRun_cases opts env.initEnv with h | ⟨rm, h⟩
    · left; rw [heq] at h; exact h
    · rw [heq] at h; simp at h
  next => right; right; rfl
  next rm oc lc heq => split_ifs <;> simp

/-! ## Claim C3

A scanned column row whose `column_name` or `data_type` is `NULL` is
silently dropped by the `continue` before the `udt_name` check, so a
column with unresolved type metadata *can* be skipped without an error;
only rows that pass that guard turn an unresolved `udt_name` into a hard
error. -/

/-- C3 counterexample: a table with one resolvable column and one row
whose declared data type and underlying type name are both unresolved
(`NULL`).  Synthesis succeeds, emitting only the first column — the
unresolved column is silently dropped, where the claim requires an
error. -/
theorem unresolved_column_silently_skipped :
    getCreateTableStatement "t" "public"
      [⟨some "a", some "integer", some "YES", none, none, none, none, some "int4",
        some "pg_catalog"⟩,
       ⟨some "b", none, none, none, none, none, none, none, none⟩] =
      .ok "CREATE TABLE public.t (\n\ta integer\n);" ∧
    (⟨some "b", none, none, none, none, none, none, none, none⟩ : ColumnRow).udtName =
      none := by
  exact ⟨rfl, rfl⟩

theorem buildColumnDefs_error_of_unresolved (schema : String) :
    ∀ rows : List ColumnRow,
    (∃ r ∈ rows, r.columnName.isSome ∧ r.dataType.isSome ∧ r.udtName = none) →
    ∃ e, buildColumnDefs schema rows = .error e := by
  intro rows
  induction rows with
  | nil => rintro ⟨r, hr, -⟩; cases hr
  | cons head rest ih =>
    rintro ⟨r, hr, hn, hd, hu⟩
    rcases List.mem_cons.mp hr with heq | hmem
    · subst heq
      refine ⟨"invalid udtName for column " ++ nullStr r.columnName, ?_⟩
      unfold buildColumnDefs
      rw [if_pos ⟨hn, hd⟩, if_neg (by simp [hu])]
    · obtain ⟨e, he⟩ := ih ⟨r, hmem, hn, hd, hu⟩
      unfold buildColumnDefs
      by_cases h1 : head.columnName.isSome ∧ head.dataType.isSome
      · rw [if_pos h1]
        by_cases h2 : head.udtName.isSome
        · rw [if_pos h2]
          exact ⟨e, by simp [he, Except.map]⟩
        · rw [if_neg h2]
          exact ⟨_, rfl⟩
      · rw [if_neg h1]
        exact ⟨e, he⟩

/-- C3 amended: among scanned rows whose `column_name` and `data_type` are
present, an unresolvable underlying type (`udt_name` NULL) aborts the
table's synthesis with an error; rows whose name or declared data type is
itself NULL are silently dropped before that check. -/
theorem unresolved_udt_aborts_synthesis (tableName schema : String)
    (rows : List ColumnRow)
    (h : ∃ r ∈ rows, r.columnName.isSome ∧ r.dataType.isSome ∧ r.udtName = none) :
    ∃ e, getCreateTableStatement tableName schema rows = .error e := by
  obtain ⟨e, he⟩ := buildColumnDefs_error_of_unresolved schema rows h
  exact ⟨e, by simp [getCreateTableStatement, he]⟩

/-- C3 amended witness: a single row with a present name and declared type
but a NULL `udt_name` makes synthesis fail. -/
theorem unresolved_udt_aborts_synthesis_witness :
    ∃ e, getCreateTableStatement "t" "public"
      [⟨some "b", some "text", none, none, none, none, none, none, none⟩] =
      .error e :=
  unresolved_udt_aborts_synthesis "t" "public" _
    ⟨⟨some "b", some "text", none, none, none, none, none, none, none⟩,
      by simp, by decide, by decide, rfl⟩

/-! ## Claim C8 -/

theorem escQuoteAux_count : ∀ l : List Char,
    (escQuoteAux l).count '\'' = 2 * l.count '\''
  | [] => rfl
  | c :: cs => by
    by_cases h : c = '\''
    · subst h
      simp [escQuoteAux, List.count_cons, escQuoteAux_count cs]
      ring
    · simp [escQuoteAux, h, List.count_cons, escQuoteAux_count cs]

theorem escQuoteAux_filter : ∀ l : List Char,
    (escQuoteAux l).filter (· ≠ '\'') = l.filter (· ≠ '\'')
  | [] => rfl
  | c :: cs => by
    by_cases h : c = '\''
    · subst h
      simp only [escQuoteAux, if_pos rfl, List.filter_cons]
      simpa using escQuoteAux_filter cs
    · simp only [escQuoteAux, if_neg h, List.filter_cons]
      simpa [h] using escQuoteAux_filter cs

/-- C8: both serializers quote a Go string value identically, with every
embedded single quote doubled (quote count doubles, all other characters
are preserved); `O'Brien` renders as `'O''Brien'` in both modes; a null
value renders as the unquoted literal `NULL` in both modes, distinct from
the quoted rendering `'NULL'` of the four-character string `NULL`. -/
theorem string_escaping_and_null (s : String) :
    encodeValueINSERT (.goString s) = some ("'" ++ escQuote s ++ "'") ∧
    encodeValueCOPY (.goString s) = encodeValueINSERT (.goString s) ∧
    (escQuote s).data.count '\'' = 2 * s.data.count '\'' ∧
    (escQuote s).data.filter (· ≠ '\'') = s.data.filter (· ≠ '\'') ∧
    encodeValueINSERT (.goString "O'Brien") = some "'O''Brien'" ∧
    encodeValueCOPY (.goString "O'Brien") = some "'O''Brien'" ∧
    encodeValueINSERT .goNil = some "NULL" ∧
    encodeValueCOPY .goNil = some "NULL" ∧
    encodeValueINSERT (.goString "NULL") = some "'NULL'" ∧
    encodeValueCOPY (.goString "NULL") = some "'NULL'" := by
  refine ⟨rfl, rfl, escQuoteAux_count s.data, escQuoteAux_filter s.data,
    ?_, ?_, rfl, rfl, ?_, ?_⟩ <;> decide

/-! ## Claim C10 -/

theorem insertPieces_length : ∀ (total i : Nat) (vs : List GoValue),
    (insertPieces total i vs).length = (vs.filterMap encodeValueINSERT).length
  | _, _, [] => rfl
  | total, i, v :: rest => by
    cases h : encodeValueINSERT v <;>
      simp [insertPieces, List.filterMap_cons, h, insertPieces_length total (i + 1) rest]

theorem insertValuesLoop_pieces : ∀ (total i : Nat) (vs : List GoValue),
    insertValuesLoop total i vs = concatAll (insertPieces total i vs)
  | _, _, [] => rfl
  | total, i, v :: rest => by
    cases h : encodeValueINSERT v <;>
      simp [insertValuesLoop, insertPieces, concatAll, h,
        insertValuesLoop_pieces total (i + 1) rest]

theorem filterMap_length_lt {α β : Type} (f : α → Option β) (l : List α) :
    ∀ x : α, x ∈ l → f x = none → (l.filterMap f).length < l.length := by
  induction l with
  | nil => intro x hx; cases hx
  | cons a t ih =>
    intro x hx hf
    rcases List.mem_cons.mp hx with rfl | hmem
    · rw [List.filterMap_cons, hf]
      exact Nat.lt_succ_of_le (List.length_filterMap_le f t)
    · cases ha : f a
      · rw [List.filterMap_cons, ha]
        exact Nat.lt_succ_of_lt (ih x hmem hf)
      · rw [List.filterMap_cons, ha]
        simpa using ih x hmem hf

/-- C10: a `time.Time` value whose formatted string fails the layout
re-parse contributes no literal in either mode: both encoders return
`none`, the INSERT value text is the concatenation of the emitted pieces
(one per value that produced a literal, each including its own trailing
separator), both modes emit strictly fewer value literals than the row has
columns, and on the concrete row `(1, <bad time>, 2)` the INSERT fragment
is `1, 2` and the COPY line is `1<TAB>2` — the value and, in INSERT mode,
its trailing separator are gone. -/
theorem failed_time_parse_skips_value (vs : List GoValue) (gt : GoTime)
    (hp : gt.parsed = none) (hm : GoValue.goTime gt ∈ vs) :
    encodeValueINSERT (.goTime gt) = none ∧
    encodeValueCOPY (.goTime gt) = none ∧
    insertValuesLoop vs.length 0 vs = concatAll (insertPieces vs.length 0 vs) ∧
    (insertPieces vs.length 0 vs).length < vs.length ∧
    (copyValueParams vs).length < vs.length ∧
    insertValuesLoop 3 0 [GoValue.goInt 1, GoValue.goTime ⟨"x", none⟩, GoValue.goInt 2] =
      "1, 2" ∧
    goJoin "\t" (copyValueParams
      [GoValue.goInt 1, GoValue.goTime ⟨"x", none⟩, GoValue.goInt 2]) = "1\t2" := by
  have he : encodeValueINSERT (.goTime gt) = none := by simp [encodeValueINSERT, hp]
  have he2 : encodeValueCOPY (.goTime gt) = none := by simp [encodeValueCOPY, hp]
  refine ⟨he, he2, insertValuesLoop_pieces _ _ _, ?_, ?_, by decide, by decide⟩
  · rw [insertPieces_length]
    exact filterMap_length_lt _ vs _ hm he
  · exact filterMap_length_lt _ vs _ hm he2

/-- C10 witness: the concrete three-column row with an unparseable time in
the middle. -/
theorem failed_time_parse_skips_value_witness :
    GoValue.goTime ⟨"x", none⟩ ∈
      [GoValue.goInt 1, GoValue.goTime ⟨"x", none⟩, GoValue.goInt 2] ∧
    (insertPieces 3 0 [GoValue.goInt 1, GoValue.goTime ⟨"x", none⟩, GoValue.goInt 2]).length <
      3 ∧
    (copyValueParams [GoValue.goInt 1, GoValue.goTime ⟨"x", none⟩, GoValue.goInt 2]).length <
      3 := by
  have h := failed_time_parse_skips_value
    [GoValue.goInt 1, GoValue.goTime ⟨"x", none⟩, GoValue.goInt 2] ⟨"x", none⟩ rfl
    (by decide)
  exact ⟨by decide, h.2.2.2.1, h.2.2.2.2.1⟩

/-! ## Claim C7

The emitted enum label sequence, recovered from the statement text as the
sequence of its single-quoted chunks, equals the introspected label
sequence (in `enumsortorder` order), provided no quote character occurs in
the schema name, the type name or the labels themselves. -/



theorem aux_skip : ∀ (a : List Char), '\'' ∉ a → ∀ b,
    extractQuotedAux false [] (a ++ b) = extractQuotedAux false [] b := by
  intro a
  induction a with
  | nil => intro _ b; rfl
  | cons c a' ih =>
    intro h b
    have hc : c ≠ '\'' := fun hh => h (hh ▸ List.mem_cons_self c a')
    simp only [List.cons_append, extractQuotedAux, if_neg hc]
    exact ih (fun hm => h (List.mem_cons_of_mem _ hm)) b

theorem aux_nil_of_noquote : ∀ (a : List Char), '\'' ∉ a →
    extractQuotedAux false [] a = [] := by
  intro a
  induction a with
  | nil => intro _; rfl
  | cons c a' ih =>
    intro h
    have hc : c ≠ '\'' := fun hh => h (hh ▸ List.mem_cons_self c a')
    simp only [extractQuotedAux, if_neg hc]
    exact ih (fun hm => h (List.mem_cons_of_mem _ hm))

theorem aux_chunk : ∀ (l : List Char), '\'' ∉ l → ∀ (acc rest : List Char),
    extractQuotedAux true acc (l ++ '\'' :: rest) =
      (acc.reverse ++ l) :: extractQuotedAux false [] rest := by
  intro l
  induction l with
  | nil => intro _ acc rest; simp [extractQuotedAux]
  | cons c l' ih =>
    intro h acc rest
    have hc : c ≠ '\'' := fun hh => h (hh ▸ List.mem_cons_self c l')
    simp only [List.cons_append, extractQuotedAux, if_neg hc, List.append_eq]
    rw [ih (fun hm => h (List.mem_cons_of_mem _ hm)) (c :: acc) rest]
    simp

theorem extract_enum_fragments : ∀ (labels : List String),
    (∀ l ∈ labels, '\'' ∉ l.data) → ∀ (tail : List Char), '\'' ∉ tail →
    extractQuotedAux false [] ((goJoin ", \n" (labels.map quotedLabel)).data ++ tail) =
      labels.map String.data := by
  intro labels
  induction labels with
  | nil => intro _ tail ht; simpa [goJoin] using aux_nil_of_noquote tail ht
  | cons l rest ih =>
    intro hl tail ht
    have hld : '\'' ∉ l.data := hl l (List.mem_cons_self _ _)
    cases rest with
    | nil =>
      have hdata : (goJoin ", \n" ([l].map quotedLabel)).data ++ tail =
          '\t' :: '\'' :: (l.data ++ '\'' :: tail) := by
        simp [goJoin, quotedLabel, data_append, List.append_assoc]
      rw [hdata]
      simp only [extractQuotedAux, if_neg (by decide : ¬('\t' = '\'')), if_pos rfl]
      rw [aux_chunk l.data hld [] tail]
      simp [aux_nil_of_noquote tail ht]
    | cons l2 r2 =>
      have hdata : (goJoin ", \n" ((l :: l2 :: r2).map quotedLabel)).data ++ tail =
          '\t' :: '\'' :: (l.data ++ '\'' ::
            (", \n".data ++ ((goJoin ", \n" ((l2 :: r2).map quotedLabel)).data ++ tail))) := by
        simp [goJoin, quotedLabel, data_append, List.append_assoc]
      rw [hdata]
      simp only [extractQuotedAux, if_neg (by decide : ¬('\t' = '\'')), if_pos rfl]
      rw [aux_chunk l.data hld []]
      rw [aux_skip ", \n".data (by decide)]
      rw [ih (fun x hx => hl x (List.mem_cons_of_mem _ hx)) tail ht]
      simp

theorem enum_label_order (typeName schema : String) (labels : List String)
    (hn : '\'' ∉ typeName.data) (hs : '\'' ∉ schema.data)
    (hl : ∀ l ∈ labels, '\'' ∉ l.data) :
    extractLabels (getCreateEnumTypeStatement typeName schema labels) = labels := by
  unfold extractLabels getCreateEnumTypeStatement extractQuoted
  have hdata : ("CREATE TYPE " ++ schema ++ "." ++ typeName ++ " AS ENUM (\n" ++
      goJoin ", \n" (labels.map quotedLabel) ++ "\n);").data =
      "CREATE TYPE ".data ++ (schema.data ++ (".".data ++ (typeName.data ++
      (" AS ENUM (\n".data ++ ((goJoin ", \n" (labels.map quotedLabel)).data ++
        "\n);".data))))) := by
    simp [data_append, List.append_assoc]
  rw [hdata]
  rw [aux_skip "CREATE TYPE ".data (by decide)]
  rw [aux_skip schema.data hs]
  rw [aux_skip ".".data (by decide)]
  rw [aux_skip typeName.data hn]
  rw [aux_skip " AS ENUM (\n".data (by decide)]
  rw [extract_enum_fragments labels hl "\n);".data (by decide)]
  rw [List.map_map]
  have hcong : ∀ x ∈ labels, (String.mk ∘ String.data) x = id x := fun x _ => rfl
  rw [List.map_congr_left hcong, List.map_id]

theorem enum_label_order_witness :
    extractLabels (getCreateEnumTypeStatement "mood" "public" ["a", "c", "b"]) =
      ["a", "c", "b"] ∧
    getCreateEnumTypeStatement "mood" "public" ["a", "c", "b"] =
      "CREATE TYPE public.mood AS ENUM (\n\t'a', \n\t'c', \n\t'b'\n);" :=
  ⟨enum_label_order "mood" "public" ["a", "c", "b"] (by decide) (by decide) (by decide),
   by decide⟩

end PgPack
